import Mathlib

/-!
Shallow embedding of the xkcd-passwd password generator (xkcd-passwd.go).

Modelling conventions:
* Go strings are modelled character-wise as `List Char` (the program's data
  is ASCII, where Go's byte indexing coincides with character indexing).
* Go `int` configuration fields are modelled as `Int`; a Go loop
  `for i := 0; i < n; i++` performs `n.toNat` iterations.
* `crypto/rand.Int(reader, max)` is modelled by `rand_int` over a
  deterministic stream of naturals (`Rand`); the value returned is the next
  stream element reduced modulo the bound, so every value in `[0, bound)` is
  reachable by a suitable stream.  `rand.Int` panics when `max <= 0`
  ("crypto/rand: argument to Int is <= 0"); the model surfaces that panic as
  the error `GenError.invalidAlphabet`, since in this program a
  non-positive bound arises exactly from an empty alphabet/dictionary.
* The unbounded rejection-sampling loop of `random_word` is modelled with
  explicit fuel; `none` marks fuel exhaustion (the Go loop not terminating
  within that many draws).
-/

namespace XkcdPasswd

/-- Model of the `type CaseType int` constants (xkcd-passwd.go lines 44-52). -/
inductive CaseType where
  | caseNone
  | caseAlternate
  | caseCapitalise
  | caseInvert
  | caseUpper
  | caseRandom
deriving DecidableEq, Repr

/-- Model of `const CaseLower CaseType = CaseNone` (line 53). -/
def CaseLower : CaseType := CaseType.caseNone

/-- Model of the `type SeparatorType int` constants (lines 55-60). -/
inductive SeparatorType where
  | separatorNone
  | separatorRandom
  | separatorCharacter
deriving DecidableEq, Repr

/-- Model of the `type PaddingType int` constants (lines 62-67). -/
inductive PaddingType where
  | paddingNone
  | paddingFixed
  | paddingAdaptive
deriving DecidableEq, Repr

/-- Model of the `type PaddingCharacter int` constants (lines 69-74). -/
inductive PaddingCharacter where
  | paddingRandom
  | paddingSeparator
  | paddingSpecified
deriving DecidableEq, Repr

/-- The raw JSON configuration record `JSON_Defaults` (lines 77-92); string
fields are `List Char`, Go `int` fields are `Int`. -/
structure JSONDefaults where
  numWords : Int
  wordLengthMin : Int
  wordLengthMax : Int
  caseTransform : List Char
  separatorCharacter : List Char
  separatorAlphabet : List (List Char)
  paddingDigitsBefore : Int
  paddingDigitsAfter : Int
  paddingType : List Char
  paddingCharacter : List Char
  symbolAlphabet : List (List Char)
  paddingCharactersBefore : Int
  paddingCharactersAfter : Int
  padToLength : Int
deriving DecidableEq, Repr

/-- The parsed configuration `Defaults` (lines 94-110). -/
structure Defaults where
  wordDictionary : List (List Char)
  numWords : Int
  wordLengthMin : Int
  wordLengthMax : Int
  caseTransform : CaseType
  separatorCharacter : SeparatorType
  separatorAlphabet : List (List Char)
  paddingDigitsBefore : Int
  paddingDigitsAfter : Int
  paddingType : PaddingType
  paddingCharacter : PaddingCharacter
  symbolAlphabet : List (List Char)
  paddingCharactersBefore : Int
  paddingCharactersAfter : Int
  padToLength : Int
deriving DecidableEq, Repr

/-- Errors produced by `read_defaults` via
`errors.New(fmt.Sprintf("Error: Unknown <field>: %v", <value>))`
(lines 136, 145, 159, 168); each constructor records the offending field and
the (lower-cased) offending value. -/
inductive ConfigError where
  | unknownCaseType (value : List Char)
  | unknownSeparatorCharacter (value : List Char)
  | unknownPaddingType (value : List Char)
  | unknownPaddingCharacter (value : List Char)
deriving DecidableEq, Repr

/-- Composition-time failures.  `invalidAlphabet` models the
`crypto/rand.Int` panic on a non-positive bound (raised exactly when the
alphabet/dictionary being sampled is empty); `indexOutOfRange` models a Go
slice/index panic. -/
inductive GenError where
  | invalidAlphabet
  | indexOutOfRange
deriving DecidableEq, Repr

/-- The entropy source: a stream of naturals together with a read position. -/
structure Rand where
  vals : Nat → Nat
  pos : Nat

/-- Advance the stream by one draw. -/
def Rand.next (r : Rand) : Rand := Rand.mk r.vals (r.pos + 1)

/-- Model of `rand.Int(rand.Reader, big.NewInt(bound))`: a uniform draw from
`[0, bound)`, realised as the next stream element modulo the bound.  Go's
`rand.Int` panics when the bound is non-positive; the model returns
`GenError.invalidAlphabet` there. -/
def rand_int (bound : Int) (r : Rand) : Except GenError (Nat × Rand) :=
  if bound ≤ 0 then Except.error GenError.invalidAlphabet
  else Except.ok (r.vals r.pos % bound.toNat, r.next)

/-- Model of `strings.ToLower` on the character-level string model. -/
def strLower (s : List Char) : List Char := s.map Char.toLower

/-- Model of `random_separator` (lines 222-240): draw a uniform index into
`SeparatorAlphabet` and return that entry.  Note that the separator mode
(`Defaults.separatorCharacter`) is not consulted. -/
def random_separator (d : Defaults) (r : Rand) : Except GenError (List Char × Rand) :=
  match rand_int (Int.ofNat d.separatorAlphabet.length) r with
  | Except.error e => Except.error e
  | Except.ok (n, r) => Except.ok (d.separatorAlphabet.getD n [], r)

/-- Model of `random_padding` (lines 202-220): draw a uniform index into
`SymbolAlphabet` and return that entry. -/
def random_padding (d : Defaults) (r : Rand) : Except GenError (List Char × Rand) :=
  match rand_int (Int.ofNat d.symbolAlphabet.length) r with
  | Except.error e => Except.error e
  | Except.ok (n, r) => Except.ok (d.symbolAlphabet.getD n [], r)

/-- Model of `random_inner_word` (lines 242-260): draw a uniform index into
`WordDictionary` and return that entry. -/
def random_inner_word (d : Defaults) (r : Rand) : Except GenError (List Char × Rand) :=
  match rand_int (Int.ofNat d.wordDictionary.length) r with
  | Except.error e => Except.error e
  | Except.ok (n, r) => Except.ok (d.wordDictionary.getD n [], r)

/-- The rejection-sampling loop of `random_word` (lines 262-269): draw a
word, accept it when its length lies in `[WordLengthMin, WordLengthMax]`,
otherwise redraw.  `fuel` bounds the number of draws; `none` is returned
when the Go loop would still be running after `fuel` draws. -/
def select_loop (d : Defaults) : Nat → Rand → Except GenError (Option (List Char × Rand))
  | 0, _ => Except.ok none
  | fuel + 1, r =>
    match random_inner_word d r with
    | Except.error e => Except.error e
    | Except.ok (w, r) =>
      if (w.length : Int) < d.wordLengthMin ∨ (w.length : Int) > d.wordLengthMax then
        select_loop d fuel r
      else
        Except.ok (some (w, r))

/-- The `CaseAlternate` branch of `random_word` (lines 274-284): character
at even index upper-cased, at odd index lower-cased; `i` is the running
loop index. -/
def caseAlternate_go : Nat → List Char → List Char
  | _, [] => []
  | i, c :: cs =>
    (if i % 2 = 0 then c.toUpper else c.toLower) :: caseAlternate_go (i + 1) cs

/-- The `CaseCapitalise` branch of `random_word` (lines 285-294): character
at index 0 upper-cased, all later characters lower-cased. -/
def caseCapitalise_go : Nat → List Char → List Char
  | _, [] => []
  | i, c :: cs =>
    (if i = 0 then c.toUpper else c.toLower) :: caseCapitalise_go (i + 1) cs

/-- The `CaseInvert` branch of `random_word` (lines 295-304): character at
index 0 lower-cased, all later characters upper-cased. -/
def caseInvert_go : Nat → List Char → List Char
  | _, [] => []
  | i, c :: cs =>
    (if i = 0 then c.toLower else c.toUpper) :: caseInvert_go (i + 1) cs

/-- The `CaseRandom` branch of `random_word` (lines 307-326): one fair coin
flip per character; 0 lower-cases, 1 upper-cases. -/
def caseRandom_go : Rand → List Char → Except GenError (List Char × Rand)
  | r, [] => Except.ok ([], r)
  | r, c :: cs =>
    match rand_int 2 r with
    | Except.error e => Except.error e
    | Except.ok (n, r) =>
      match caseRandom_go r cs with
      | Except.error e => Except.error e
      | Except.ok (rest, r) =>
        Except.ok ((if n = 0 then c.toLower else c.toUpper) :: rest, r)

/-- The case-transform `switch` of `random_word` (lines 271-327), factored
out over the selected word. -/
def apply_case (ct : CaseType) (r : Rand) (w : List Char) : Except GenError (List Char × Rand) :=
  match ct with
  | CaseType.caseNone => Except.ok (w.map Char.toLower, r)
  | CaseType.caseAlternate => Except.ok (caseAlternate_go 0 w, r)
  | CaseType.caseCapitalise => Except.ok (caseCapitalise_go 0 w, r)
  | CaseType.caseInvert => Except.ok (caseInvert_go 0 w, r)
  | CaseType.caseUpper => Except.ok (w.map Char.toUpper, r)
  | CaseType.caseRandom => caseRandom_go r w

/-- Model of `random_word` (lines 262-330): rejection-sample a word of acceptable
length, then apply the configured case transform. -/
def random_word (d : Defaults) (fuel : Nat) (r : Rand) : Except GenError (Option (List Char × Rand)) :=
  match select_loop d fuel r with
  | Except.error e => Except.error e
  | Except.ok none => Except.ok none
  | Except.ok (some (w, r)) =>
    match apply_case d.caseTransform r w with
    | Except.error e => Except.error e
    | Except.ok (w, r) => Except.ok (some (w, r))

/-- Decimal rendering of a natural number (the digits emitted by
`fmt.Sprintf("%0*d", ...)` before zero-padding). -/
def decimalDigits (n : Nat) : List Char :=
  if h : n < 10 then [Nat.digitChar n]
  else decimalDigits (n / 10) ++ [Nat.digitChar (n % 10)]
decreasing_by exact Nat.div_lt_self (by omega) (by omega)

/-- Model of `random_digits` (lines 332-350): draw `n < 10^numDigits` uniformly and
render it zero-padded to width `numDigits` (`fmt.Sprintf("%0*d", ...)`).
`math.Pow10` of a negative argument truncates to `0` under `int64`
conversion. -/
def random_digits (numDigits : Int) (r : Rand) : Except GenError (List Char × Rand) :=
  match rand_int (if 0 ≤ numDigits then (10 : Int) ^ numDigits.toNat else 0) r with
  | Except.error e => Except.error e
  | Except.ok (n, r) =>
    Except.ok (List.replicate (numDigits.toNat - (decimalDigits n).length) '0' ++ decimalDigits n, r)

/-- The word-emission loop of `generate_output` (lines 385-390), indexed by
the number of remaining iterations: emit a word, and a separator after it
unless it is the last word. -/
def words_go (d : Defaults) (fuel : Nat) (sep : List Char) : Nat → Rand → Except GenError (Option (List Char × Rand))
  | 0, r => Except.ok (some ([], r))
  | k + 1, r =>
    match random_word d fuel r with
    | Except.error e => Except.error e
    | Except.ok none => Except.ok none
    | Except.ok (some (w, r)) =>
      match words_go d fuel sep k r with
      | Except.error e => Except.error e
      | Except.ok none => Except.ok none
      | Except.ok (some (rest, r)) =>
        Except.ok (some (w ++ (if k = 0 then [] else sep) ++ rest, r))

/-- Padding-symbol resolution in `generate_output` (lines 364-372): only
performed when the padding type is Fixed or Adaptive; `PaddingSpecified`
reads `SymbolAlphabet[0]` (a Go index panic when that slice is empty). -/
def resolve_padding (d : Defaults) (separator : List Char) (r : Rand) : Except GenError (List Char × Rand) :=
  if d.paddingType = PaddingType.paddingFixed ∨ d.paddingType = PaddingType.paddingAdaptive then
    match d.paddingCharacter with
    | PaddingCharacter.paddingRandom => random_padding d r
    | PaddingCharacter.paddingSeparator => Except.ok (separator, r)
    | PaddingCharacter.paddingSpecified =>
      match d.symbolAlphabet with
      | [] => Except.error GenError.indexOutOfRange
      | a :: _ => Except.ok (a, r)
  else Except.ok ([], r)

/-- Lines 380-383: when `PaddingDigitsBefore > 0`, the random digits
followed by the separator; otherwise nothing. -/
def digits_before_part (d : Defaults) (separator : List Char) (r : Rand) : Except GenError (List Char × Rand) :=
  if d.paddingDigitsBefore > 0 then
    match random_digits d.paddingDigitsBefore r with
    | Except.error e => Except.error e
    | Except.ok (ds, r) => Except.ok (ds ++ separator, r)
  else Except.ok ([], r)

/-- Lines 392-395: when `PaddingDigitsAfter > 0`, the separator followed by
the random digits; otherwise nothing. -/
def digits_after_part (d : Defaults) (separator : List Char) (r : Rand) : Except GenError (List Char × Rand) :=
  if d.paddingDigitsAfter > 0 then
    match random_digits d.paddingDigitsAfter r with
    | Except.error e => Except.error e
    | Except.ok (ds, r) => Except.ok (separator ++ ds, r)
  else Except.ok ([], r)

/-- Lines 374-378: the fixed padding emitted before everything else. -/
def front_pad (d : Defaults) (padding : List Char) : List Char :=
  if d.paddingType = PaddingType.paddingFixed then
    (List.replicate d.paddingCharactersBefore.toNat padding).flatten
  else []

/-- Lines 397-401: the fixed padding emitted after everything else. -/
def back_pad (d : Defaults) (padding : List Char) : List Char :=
  if d.paddingType = PaddingType.paddingFixed then
    (List.replicate d.paddingCharactersAfter.toNat padding).flatten
  else []

/-- The builder phase of `generate_output` (lines 352-404): everything up to
`result = builder.String()`, returning the assembled pre-padding string
together with the resolved padding symbol and the advanced random state. -/
def compose_prepad (d : Defaults) (fuel : Nat) (r : Rand) : Except GenError (Option (List Char × List Char × Rand)) :=
  match random_separator d r with
  | Except.error e => Except.error e
  | Except.ok (separator, r) =>
    match resolve_padding d separator r with
    | Except.error e => Except.error e
    | Except.ok (padding, r) =>
      match digits_before_part d separator r with
      | Except.error e => Except.error e
      | Except.ok (dB, r) =>
        match words_go d fuel separator d.numWords.toNat r with
        | Except.error e => Except.error e
        | Except.ok none => Except.ok none
        | Except.ok (some (wordsPart, r)) =>
          match digits_after_part d separator r with
          | Except.error e => Except.error e
          | Except.ok (dA, r) =>
            Except.ok (some (front_pad d padding ++ dB ++ wordsPart ++ dA ++ back_pad d padding, padding, r))

/-- Model of `generate_output` (lines 352-422): assemble the pre-padding string, then
apply the adaptive-padding adjustment of lines 406-417.  When the string is
longer than `PadToLength`, Go takes the slice `result[1:PadToLength+1]`
(a panic when `PadToLength < 0`); when shorter, it appends the padding
symbol until `PadToLength` characters are reached. -/
def generate_output (d : Defaults) (fuel : Nat) (r : Rand) : Except GenError (Option (List Char)) :=
  match compose_prepad d fuel r with
  | Except.error e => Except.error e
  | Except.ok none => Except.ok none
  | Except.ok (some (result, padding, _)) =>
    if d.paddingType = PaddingType.paddingAdaptive then
      if (result.length : Int) > d.padToLength then
        if d.padToLength < 0 then Except.error GenError.indexOutOfRange
        else Except.ok (some ((result.drop 1).take d.padToLength.toNat))
      else if (result.length : Int) < d.padToLength then
        Except.ok (some (result ++ (List.replicate (d.padToLength - (result.length : Int)).toNat padding).flatten))
      else Except.ok (some result)
    else Except.ok (some result)

/-- The `CaseTransform` switch of `read_defaults` (lines 126-137). -/
def parse_case_transform (ct : List Char) : Except ConfigError CaseType :=
  if ct = "none".toList then Except.ok CaseType.caseNone
  else if ct = "alternate".toList then Except.ok CaseType.caseAlternate
  else if ct = "capitalise".toList then Except.ok CaseType.caseCapitalise
  else if ct = "invert".toList then Except.ok CaseType.caseInvert
  else if ct = "upper".toList then Except.ok CaseType.caseUpper
  else if ct = "lower".toList then Except.ok CaseLower
  else if ct = "random".toList then Except.ok CaseType.caseRandom
  else Except.error (ConfigError.unknownCaseType ct)

/-- The `SeparatorCharacter` switch of `read_defaults` (lines 138-150):
`none`/`random` keep the record's alphabet; a longer-than-one string is an
error; otherwise the (lower-cased) literal becomes a one-element alphabet. -/
def parse_separator (sc : List Char) (alphabet : List (List Char)) : Except ConfigError (SeparatorType × List (List Char)) :=
  if sc = "none".toList then Except.ok (SeparatorType.separatorNone, alphabet)
  else if sc = "random".toList then Except.ok (SeparatorType.separatorRandom, alphabet)
  else if sc.length > 1 then Except.error (ConfigError.unknownSeparatorCharacter sc)
  else Except.ok (SeparatorType.separatorCharacter, [sc])

/-- The `PaddingType` switch of `read_defaults` (lines 153-160). -/
def parse_padding_type (pt : List Char) : Except ConfigError PaddingType :=
  if pt = "none".toList then Except.ok PaddingType.paddingNone
  else if pt = "fixed".toList then Except.ok PaddingType.paddingFixed
  else if pt = "adaptive".toList then Except.ok PaddingType.paddingAdaptive
  else Except.error (ConfigError.unknownPaddingType pt)

/-- The `PaddingCharacter` switch of `read_defaults` (lines 161-173):
`random`/`separator` keep the record's symbol alphabet; a
longer-than-one string is an error; otherwise the (lower-cased) literal
becomes a one-element symbol alphabet. -/
def parse_padding_char (pc : List Char) (alphabet : List (List Char)) : Except ConfigError (PaddingCharacter × List (List Char)) :=
  if pc = "random".toList then Except.ok (PaddingCharacter.paddingRandom, alphabet)
  else if pc = "separator".toList then Except.ok (PaddingCharacter.paddingSeparator, alphabet)
  else if pc.length > 1 then Except.error (ConfigError.unknownPaddingCharacter pc)
  else Except.ok (PaddingCharacter.paddingSpecified, [pc])

/-- Model of `read_defaults` (lines 112-179), after JSON unmarshalling: each
enum-valued field is lower-cased and resolved in source order, returning on
the first failure; numeric fields are copied verbatim; `WordDictionary` is
filled in later by `main` and left empty here. -/
def read_defaults (j : JSONDefaults) : Except ConfigError Defaults :=
  match parse_case_transform (strLower j.caseTransform) with
  | Except.error e => Except.error e
  | Except.ok caseT =>
    match parse_separator (strLower j.separatorCharacter) j.separatorAlphabet with
    | Except.error e => Except.error e
    | Except.ok (sepT, sepAlpha) =>
      match parse_padding_type (strLower j.paddingType) with
      | Except.error e => Except.error e
      | Except.ok padT =>
        match parse_padding_char (strLower j.paddingCharacter) j.symbolAlphabet with
        | Except.error e => Except.error e
        | Except.ok (padC, symAlpha) =>
          Except.ok
            { wordDictionary := []
              numWords := j.numWords
              wordLengthMin := j.wordLengthMin
              wordLengthMax := j.wordLengthMax
              caseTransform := caseT
              separatorCharacter := sepT
              separatorAlphabet := sepAlpha
              paddingDigitsBefore := j.paddingDigitsBefore
              paddingDigitsAfter := j.paddingDigitsAfter
              paddingType := padT
              paddingCharacter := padC
              symbolAlphabet := symAlpha
              paddingCharactersBefore := j.paddingCharactersBefore
              paddingCharactersAfter := j.paddingCharactersAfter
              padToLength := j.padToLength }

/-! Section: Concrete streams, configurations and records used as test inputs -/

/-- The all-zero entropy stream. -/
def zeroStream : Nat → Nat := fun _ => 0

/-- The all-zero entropy source at position 0. -/
def randZero : Rand := Rand.mk zeroStream 0

/-- Stream choosing dictionary index 1 on the third draw, 0 elsewhere. -/
def valsC1 : Nat → Nat := fun n => if n = 2 then 1 else 0

/-- Entropy source over `valsC1` at position 0. -/
def randC1 : Rand := Rand.mk valsC1 0

/-- Adaptive-padding configuration: two words from a 4/5-letter dictionary,
fixed separator `-`, specified padding `+`, `padToLength = 7`. -/
def cfgC1 : Defaults :=
  { wordDictionary := ["abcd".toList, "efghi".toList]
    numWords := 2
    wordLengthMin := 1
    wordLengthMax := 10
    caseTransform := CaseType.caseNone
    separatorCharacter := SeparatorType.separatorCharacter
    separatorAlphabet := ["-".toList]
    paddingDigitsBefore := 0
    paddingDigitsAfter := 0
    paddingType := PaddingType.paddingAdaptive
    paddingCharacter := PaddingCharacter.paddingSpecified
    symbolAlphabet := ["+".toList]
    paddingCharactersBefore := 0
    paddingCharactersAfter := 0
    padToLength := 7 }

/-- Variant of `cfgC1` with separator mode None and no padding: the record a user gets
from `separator_character = "none"` with alphabet `["-"]`. -/
def cfgC3 : Defaults :=
  { cfgC1 with
    separatorCharacter := SeparatorType.separatorNone
    paddingType := PaddingType.paddingNone }

/-- Variant of `cfgC1` with a single word and `padToLength = 8` (pre-padding string
shorter than the target). -/
def cfgC6 : Defaults :=
  { cfgC1 with numWords := 1, padToLength := 8 }

/-- Random separator mode with an empty separator alphabet. -/
def cfgC8sep : Defaults :=
  { cfgC1 with
    separatorCharacter := SeparatorType.separatorRandom
    separatorAlphabet := [] }

/-- Random padding character with an empty symbol alphabet. -/
def cfgC8pad : Defaults :=
  { cfgC1 with
    paddingCharacter := PaddingCharacter.paddingRandom
    symbolAlphabet := [] }

/-- A raw record whose `word_length_min` exceeds its `word_length_max` but
whose enum fields are all recognizable. -/
def jC9 : JSONDefaults :=
  { numWords := 3
    wordLengthMin := 10
    wordLengthMax := 3
    caseTransform := "none".toList
    separatorCharacter := "none".toList
    separatorAlphabet := ["-".toList]
    paddingDigitsBefore := 0
    paddingDigitsAfter := 0
    paddingType := "none".toList
    paddingCharacter := "random".toList
    symbolAlphabet := ["+".toList]
    paddingCharactersBefore := 0
    paddingCharactersAfter := 0
    padToLength := 0 }

/-- Variant of `jC9` with upper-case literal separator and padding characters. -/
def jC10 : JSONDefaults :=
  { jC9 with
    separatorCharacter := "X".toList
    paddingCharacter := "Y".toList }

/-- Variant of `jC9` with an unrecognizable case-transform token. -/
def jC7bad : JSONDefaults :=
  { jC9 with caseTransform := "Sideways".toList }

/-- The configuration `read_defaults` produces from `jC9`. -/
def dC9 : Defaults :=
  { wordDictionary := []
    numWords := 3
    wordLengthMin := 10
    wordLengthMax := 3
    caseTransform := CaseType.caseNone
    separatorCharacter := SeparatorType.separatorNone
    separatorAlphabet := ["-".toList]
    paddingDigitsBefore := 0
    paddingDigitsAfter := 0
    paddingType := PaddingType.paddingNone
    paddingCharacter := PaddingCharacter.paddingRandom
    symbolAlphabet := ["+".toList]
    paddingCharactersBefore := 0
    paddingCharactersAfter := 0
    padToLength := 0 }

/-- The configuration `read_defaults` produces from `jC10`: the literal
`X`/`Y` characters are stored lower-cased in one-element alphabets. -/
def dC10 : Defaults :=
  { dC9 with
    separatorCharacter := SeparatorType.separatorCharacter
    separatorAlphabet := ["x".toList]
    paddingCharacter := PaddingCharacter.paddingSpecified
    symbolAlphabet := ["y".toList] }

/-- The recognized (lower-cased) case-transform tokens (spec §4.1). -/
def caseTokens : List (List Char) :=
  ["none".toList, "alternate".toList, "capitalise".toList, "invert".toList,
   "upper".toList, "lower".toList, "random".toList]

/-- The recognized separator-character enum tokens. -/
def sepTokens : List (List Char) := ["none".toList, "random".toList]

/-- The recognized padding-type tokens. -/
def padTypeTokens : List (List Char) := ["none".toList, "fixed".toList, "adaptive".toList]

/-- The recognized padding-character enum tokens. -/
def padCharTokens : List (List Char) := ["random".toList, "separator".toList]

/-! Section: Generic list lemmas -/

theorem intercalate_nil_ (sep : List Char) : List.intercalate sep [] = [] := rfl

theorem intercalate_single (sep w : List Char) : List.intercalate sep [w] = w := by
  simp [List.intercalate]

theorem intercalate_cons₂ (sep a b : List Char) (t : List (List Char)) :
    List.intercalate sep (a :: b :: t) = a ++ sep ++ List.intercalate sep (b :: t) := by
  simp [List.intercalate, List.append_assoc]

theorem flatten_replicate_length (k : Nat) (l : List Char) :
    (List.replicate k l).flatten.length = k * l.length := by
  induction k with
  | zero => simp
  | succ k ih => simp [List.replicate_succ, ih, Nat.succ_mul, Nat.add_comm]

/-! Section: Case-transform lemmas -/

theorem caseAlternate_go_length (w : List Char) : ∀ i, (caseAlternate_go i w).length = w.length := by
  induction w with
  | nil => intro i; rfl
  | cons c cs ih => intro i; simp [caseAlternate_go, ih]

theorem caseCapitalise_go_length (w : List Char) : ∀ i, (caseCapitalise_go i w).length = w.length := by
  induction w with
  | nil => intro i; rfl
  | cons c cs ih => intro i; simp [caseCapitalise_go, ih]

theorem caseInvert_go_length (w : List Char) : ∀ i, (caseInvert_go i w).length = w.length := by
  induction w with
  | nil => intro i; rfl
  | cons c cs ih => intro i; simp [caseInvert_go, ih]

theorem caseRandom_go_length (w : List Char) : ∀ r out r₂,
    caseRandom_go r w = Except.ok (out, r₂) → out.length = w.length := by
  induction w with
  | nil =>
    intro r out r₂ h
    simp only [caseRandom_go] at h
    cases h
    rfl
  | cons c cs ih =>
    intro r out r₂ h
    simp only [caseRandom_go, rand_int] at h
    norm_num at h
    cases hrec : caseRandom_go r.next cs with
    | error e => rw [hrec] at h; cases h
    | ok p =>
      rw [hrec] at h
      cases h
      simpa using ih _ _ _ hrec

theorem apply_case_length (ct : CaseType) (r : Rand) (w out : List Char) (r₂ : Rand)
    (h : apply_case ct r w = Except.ok (out, r₂)) : out.length = w.length := by
  cases ct <;> simp only [apply_case] at h
  case caseNone => cases h; simp
  case caseAlternate => cases h; exact caseAlternate_go_length w 0
  case caseCapitalise => cases h; exact caseCapitalise_go_length w 0
  case caseInvert => cases h; exact caseInvert_go_length w 0
  case caseUpper => cases h; simp
  case caseRandom => exact caseRandom_go_length w r out r₂ h

/-- Lemma: `caseCapitalise_go` at any positive index lower-cases everything. -/
theorem caseCapitalise_go_pos (cs : List Char) : ∀ i, caseCapitalise_go (i + 1) cs = cs.map Char.toLower := by
  induction cs with
  | nil => intro i; rfl
  | cons c t ih => intro i; simp [caseCapitalise_go, ih (i + 1)]

/-! Section: Word-selection lemmas -/

theorem select_loop_bounds (d : Defaults) : ∀ fuel r w r₂,
    select_loop d fuel r = Except.ok (some (w, r₂)) →
    d.wordLengthMin ≤ (w.length : Int) ∧ (w.length : Int) ≤ d.wordLengthMax := by
  intro fuel
  induction fuel with
  | zero => intro r w r₂ h; cases h
  | succ fuel ih =>
    intro r w r₂ h
    simp only [select_loop] at h
    split at h
    · cases h
    · split at h
      · exact ih _ _ _ h
      · rename_i hbad
        cases h
        push_neg at hbad
        exact ⟨hbad.1, hbad.2⟩

/-- Counterexample to claim C2: The Capitalise transform applied to `"apple"`
yields `"Apple"`, not the all-upper `"APPLE"` the claim requires.  (The code
comment on the `CaseCapitalise` constant — "Case - first character is
uppercase, rest are lowercase" — agrees with the code, not with the claim.) -/
theorem capitalise_apple_counterexample :
    Except.map (fun p => p.1) (apply_case CaseType.caseCapitalise (Rand.mk (fun _ => 0) 0) ("apple".toList)) =
      Except.ok ("Apple".toList) ∧
    "Apple".toList ≠ "APPLE".toList := by
  exact ⟨rfl, by decide⟩

/-- Claim C2 as amended: The Capitalise case transform upper-cases exactly the
first character of the word and lower-cases every later character; on
`"apple"` it yields `"Apple"`. -/
theorem capitalise_first_upper_rest_lower (r : Rand) (w : List Char) :
    apply_case CaseType.caseCapitalise r w =
      Except.ok ((match w with
        | [] => ([] : List Char)
        | c :: cs => c.toUpper :: cs.map Char.toLower), r) := by
  cases w with
  | nil => rfl
  | cons c cs =>
    simp [apply_case, caseCapitalise_go, caseCapitalise_go_pos cs 0]

/-- Claim C4: Whenever word selection returns a word (for a dictionary holding
at least one entry of acceptable length, the claim's liveness premise), the
returned word's length lies within `[wordLengthMin, wordLengthMax]`: the
rejection-sampling loop only accepts in-bounds words, and every case
transform preserves length. -/
theorem random_word_length_in_bounds (d : Defaults) (fuel : Nat) (r : Rand) (w : List Char) (r₂ : Rand)
    (_hdict : ∃ w₀ ∈ d.wordDictionary, d.wordLengthMin ≤ (w₀.length : Int) ∧ (w₀.length : Int) ≤ d.wordLengthMax)
    (h : random_word d fuel r = Except.ok (some (w, r₂))) :
    d.wordLengthMin ≤ (w.length : Int) ∧ (w.length : Int) ≤ d.wordLengthMax := by
  simp only [random_word] at h
  split at h
  · cases h
  · cases h
  · rename_i w₀ r₀ hsel
    split at h
    · cases h
    · rename_i wt rt happ
      cases h
      have hlen := apply_case_length d.caseTransform r₀ w₀ _ _ happ
      rw [hlen]
      exact select_loop_bounds d fuel r w₀ r₀ hsel

/-! Section: Digit lemmas -/

theorem digitChar_isDigit (k : Nat) (h : k < 10) : (Nat.digitChar k).isDigit := by
  interval_cases k <;> decide

theorem decimalDigits_length_le (w : Nat) : ∀ n, 1 ≤ w → n < 10 ^ w → (decimalDigits n).length ≤ w := by
  induction w with
  | zero => intro n h1 _; omega
  | succ w ih =>
    intro n _ h2
    rw [decimalDigits]
    split
    · simp
    · rename_i hge
      have hw : 1 ≤ w := by
        rcases Nat.eq_zero_or_pos w with hw0 | hw0
        · subst hw0; norm_num at h2; omega
        · exact hw0
      have hdiv : n / 10 < 10 ^ w := by
        have hmul : n < 10 ^ w * 10 := by rw [pow_succ] at h2; exact h2
        omega
      have := ih (n / 10) hw hdiv
      simp only [List.length_append, List.length_singleton]
      omega

theorem decimalDigits_isDigit (n : Nat) : ∀ c ∈ decimalDigits n, c.isDigit := by
  induction n using Nat.strong_induction_on with
  | _ n ih =>
    rw [decimalDigits]
    split
    · rename_i h
      intro c hc
      simp only [List.mem_singleton] at hc
      subst hc
      exact digitChar_isDigit n h
    · rename_i h
      intro c hc
      simp only [List.mem_append, List.mem_singleton] at hc
      rcases hc with hc | hc
      · exact ih (n / 10) (Nat.div_lt_self (by omega) (by omega)) c hc
      · subst hc
        exact digitChar_isDigit (n % 10) (Nat.mod_lt n (by omega))

theorem random_digits_spec (nd : Int) (r : Rand) (ds : List Char) (r₂ : Rand)
    (hpos : 0 < nd) (h : random_digits nd r = Except.ok (ds, r₂)) :
    ds.length = nd.toNat ∧ ∀ c ∈ ds, c.isDigit := by
  simp only [random_digits] at h
  rw [if_pos (le_of_lt hpos)] at h
  have hb : ¬ ((10 : Int) ^ nd.toNat ≤ 0) := not_le.mpr (pow_pos (by norm_num) _)
  rw [rand_int, if_neg hb] at h
  cases h
  have hcast : ((10 : Int) ^ nd.toNat).toNat = 10 ^ nd.toNat := by
    rw [show ((10 : Int) ^ nd.toNat) = ((10 ^ nd.toNat : Nat) : Int) by push_cast; ring]
    exact Int.toNat_natCast _
  have hnlt : r.vals r.pos % ((10 : Int) ^ nd.toNat).toNat < 10 ^ nd.toNat := by
    rw [hcast]
    exact Nat.mod_lt _ (pow_pos (by omega) _)
  have hlen := decimalDigits_length_le nd.toNat _ (by omega) hnlt
  constructor
  · simp only [List.length_append, List.length_replicate]
    omega
  · intro c hc
    simp only [List.mem_append, List.mem_replicate] at hc
    rcases hc with hc | hc
    · rw [hc.2]; decide
    · exact decimalDigits_isDigit _ c hc

/-! Section: Word-block structure -/

theorem words_go_structure (d : Defaults) (fuel : Nat) (sep : List Char) : ∀ k r out r₂,
    words_go d fuel sep k r = Except.ok (some (out, r₂)) →
    ∃ ws : List (List Char), ws.length = k ∧
      (∀ w ∈ ws, ∃ r₁ rw, random_word d fuel r₁ = Except.ok (some (w, rw))) ∧
      out = List.intercalate sep ws := by
  intro k
  induction k with
  | zero =>
    intro r out r₂ h
    simp only [words_go] at h
    cases h
    exact ⟨[], rfl, by simp, rfl⟩
  | succ k ih =>
    intro r out r₂ h
    simp only [words_go] at h
    split at h
    · cases h
    · cases h
    · rename_i w rw hword
      split at h
      · cases h
      · cases h
      · rename_i rest r₃ hrest
        cases h
        obtain ⟨ws, hlen, hmem, hout⟩ := ih _ _ _ hrest
        refine ⟨w :: ws, by simp [hlen], ?_, ?_⟩
        · intro w' hw'
          rcases List.mem_cons.mp hw' with rfl | hw'
          · exact ⟨_, _, hword⟩
          · exact hmem w' hw'
        · subst hout
          cases ws with
          | nil =>
            simp only [List.length_nil] at hlen
            subst hlen
            simp [intercalate_single, intercalate_nil_]
          | cons b t =>
            have hk : k ≠ 0 := by
              simp only [List.length_cons] at hlen
              omega
            rw [if_neg hk, intercalate_cons₂]

/-- The full structure of the pre-padding string assembled by
`compose_prepad`: one separator drawn up front, fixed padding, optional
digit groups, and the word block joined by that same separator. -/
theorem compose_prepad_structure (d : Defaults) (fuel : Nat) (r : Rand)
    (pre pad : List Char) (r₂ : Rand)
    (h : compose_prepad d fuel r = Except.ok (some (pre, pad, r₂))) :
    ∃ sep rs ws dB dA,
      random_separator d r = Except.ok (sep, rs) ∧
      ws.length = d.numWords.toNat ∧
      (∀ w ∈ ws, ∃ r₁ rw, random_word d fuel r₁ = Except.ok (some (w, rw))) ∧
      (0 < d.paddingDigitsBefore → dB.length = d.paddingDigitsBefore.toNat ∧ ∀ c ∈ dB, c.isDigit) ∧
      (0 < d.paddingDigitsAfter → dA.length = d.paddingDigitsAfter.toNat ∧ ∀ c ∈ dA, c.isDigit) ∧
      pre = front_pad d pad
        ++ (if 0 < d.paddingDigitsBefore then dB ++ sep else [])
        ++ List.intercalate sep ws
        ++ (if 0 < d.paddingDigitsAfter then sep ++ dA else [])
        ++ back_pad d pad := by
  simp only [compose_prepad] at h
  split at h
  · cases h
  · rename_i sep rs hsep
    split at h
    · cases h
    · rename_i pad' rp hpad
      split at h
      · cases h
      · rename_i dB' rb hdb
        split at h
        · cases h
        · cases h
        · rename_i wordsPart rw hwords
          split at h
          · cases h
          · rename_i dA' ra hda
            cases h
            obtain ⟨ws, hwlen, hwmem, hwout⟩ := words_go_structure d fuel sep _ _ _ _ hwords
            simp only [digits_before_part] at hdb
            simp only [digits_after_part] at hda
            by_cases hB : 0 < d.paddingDigitsBefore
            · rw [if_pos hB] at hdb
              split at hdb
              · cases hdb
              · rename_i ds rds hds
                cases hdb
                by_cases hA : 0 < d.paddingDigitsAfter
                · rw [if_pos hA] at hda
                  split at hda
                  · cases hda
                  · rename_i ds₂ rds₂ hds₂
                    cases hda
                    refine ⟨sep, rs, ws, ds, ds₂, hsep, hwlen, hwmem, ?_, ?_, ?_⟩
                    · intro _; exact random_digits_spec _ _ _ _ hB hds
                    · intro _; exact random_digits_spec _ _ _ _ hA hds₂
                    · simp [hwout, hB, hA]
                · rw [if_neg hA] at hda
                  cases hda
                  refine ⟨sep, rs, ws, ds, [], hsep, hwlen, hwmem, ?_, ?_, ?_⟩
                  · intro _; exact random_digits_spec _ _ _ _ hB hds
                  · intro hA'; exact absurd hA' hA
                  · simp [hwout, hB, hA]
            · rw [if_neg hB] at hdb
              cases hdb
              by_cases hA : 0 < d.paddingDigitsAfter
              · rw [if_pos hA] at hda
                split at hda
                · cases hda
                · rename_i ds₂ rds₂ hds₂
                  cases hda
                  refine ⟨sep, rs, ws, [], ds₂, hsep, hwlen, hwmem, ?_, ?_, ?_⟩
                  · intro hB'; exact absurd hB' hB
                  · intro _; exact random_digits_spec _ _ _ _ hA hds₂
                  · simp [hwout, hB, hA]
              · rw [if_neg hA] at hda
                cases hda
                refine ⟨sep, rs, ws, [], [], hsep, hwlen, hwmem, ?_, ?_, ?_⟩
                · intro hB'; exact absurd hB' hB
                · intro hA'; exact absurd hA' hA
                · simp [hwout, hB, hA]

/-- Claim C5: The composed (pre-adaptive) output is, in this exact order: the
padding symbol repeated `paddingCharactersBefore` times when the padding
type is Fixed; then, when `paddingDigitsBefore > 0`, that many random
decimal digits followed by the separator; then `numWords` case-transformed
words joined by the separator with no trailing separator; then, when
`paddingDigitsAfter > 0`, the separator followed by that many random decimal
digits; then the padding symbol repeated `paddingCharactersAfter` times when
the padding type is Fixed. -/
theorem compose_assembly_order (d : Defaults) (fuel : Nat) (r : Rand)
    (pre pad : List Char) (r₂ : Rand)
    (h : compose_prepad d fuel r = Except.ok (some (pre, pad, r₂))) :
    ∃ sep rs ws dB dA,
      random_separator d r = Except.ok (sep, rs) ∧
      ws.length = d.numWords.toNat ∧
      (∀ w ∈ ws, ∃ r₁ rw, random_word d fuel r₁ = Except.ok (some (w, rw))) ∧
      (0 < d.paddingDigitsBefore → dB.length = d.paddingDigitsBefore.toNat ∧ ∀ c ∈ dB, c.isDigit) ∧
      (0 < d.paddingDigitsAfter → dA.length = d.paddingDigitsAfter.toNat ∧ ∀ c ∈ dA, c.isDigit) ∧
      pre = (if d.paddingType = PaddingType.paddingFixed then
               (List.replicate d.paddingCharactersBefore.toNat pad).flatten else [])
        ++ (if 0 < d.paddingDigitsBefore then dB ++ sep else [])
        ++ List.intercalate sep ws
        ++ (if 0 < d.paddingDigitsAfter then sep ++ dA else [])
        ++ (if d.paddingType = PaddingType.paddingFixed then
              (List.replicate d.paddingCharactersAfter.toNat pad).flatten else []) :=
  compose_prepad_structure d fuel r pre pad r₂ h

/-- Witness for claim C5: the assembly-order theorem instantiated on `cfgC1`. -/
theorem compose_assembly_order_witness :
    ∃ sep rs ws dB dA,
      random_separator cfgC1 randC1 = Except.ok (sep, rs) ∧
      ws.length = cfgC1.numWords.toNat ∧
      (∀ w ∈ ws, ∃ r₁ rw, random_word cfgC1 3 r₁ = Except.ok (some (w, rw))) ∧
      (0 < cfgC1.paddingDigitsBefore → dB.length = cfgC1.paddingDigitsBefore.toNat ∧ ∀ c ∈ dB, c.isDigit) ∧
      (0 < cfgC1.paddingDigitsAfter → dA.length = cfgC1.paddingDigitsAfter.toNat ∧ ∀ c ∈ dA, c.isDigit) ∧
      "abcd-efghi".toList = (if cfgC1.paddingType = PaddingType.paddingFixed then
               (List.replicate cfgC1.paddingCharactersBefore.toNat ("+".toList)).flatten else [])
        ++ (if 0 < cfgC1.paddingDigitsBefore then dB ++ sep else [])
        ++ List.intercalate sep ws
        ++ (if 0 < cfgC1.paddingDigitsAfter then sep ++ dA else [])
        ++ (if cfgC1.paddingType = PaddingType.paddingFixed then
              (List.replicate cfgC1.paddingCharactersAfter.toNat ("+".toList)).flatten else []) :=
  compose_assembly_order cfgC1 3 randC1 "abcd-efghi".toList "+".toList (Rand.mk valsC1 3) rfl

/-- Counterexample to claim C3: With separator mode None (and separator alphabet
`["-"]`), the resolved separator is `"-"`, not the empty string the claim
requires, and the two words of the output are joined by `-`. -/
theorem separator_none_counterexample :
    cfgC3.separatorCharacter = SeparatorType.separatorNone ∧
    Except.map (fun p => p.1) (random_separator cfgC3 randC1) = Except.ok ("-".toList) ∧
    "-".toList ≠ ([] : List Char) ∧
    generate_output cfgC3 3 randC1 = Except.ok (some ("abcd-efghi".toList)) := by
  exact ⟨rfl, rfl, by decide, rfl⟩

/-- Claim C3 as amended: A single separator value is resolved once at the start
of composition and used identically in every separator slot; it is drawn
from `separatorAlphabet` irrespective of the separator mode (in particular,
mode None is not special-cased to the empty string), and when the alphabet
is the one-element list produced for FixedCharacter mode, the value is that
configured character. -/
theorem separator_single_resolution (d : Defaults) (fuel : Nat) (r : Rand)
    (pre pad : List Char) (r₂ : Rand) (sep : List Char) (rs : Rand)
    (hsep : random_separator d r = Except.ok (sep, rs))
    (h : compose_prepad d fuel r = Except.ok (some (pre, pad, r₂))) :
    (∀ m : SeparatorType, random_separator { d with separatorCharacter := m } r = Except.ok (sep, rs)) ∧
    (∀ c : List Char, d.separatorAlphabet = [c] → sep = c) ∧
    (∃ ws dB dA, ws.length = d.numWords.toNat ∧
      pre = front_pad d pad
        ++ (if 0 < d.paddingDigitsBefore then dB ++ sep else [])
        ++ List.intercalate sep ws
        ++ (if 0 < d.paddingDigitsAfter then sep ++ dA else [])
        ++ back_pad d pad) := by
  refine ⟨fun m => hsep, ?_, ?_⟩
  · intro c hc
    simp [random_separator, rand_int, hc, Nat.mod_one, Prod.ext_iff] at hsep
    exact hsep.1.symm
  · obtain ⟨sep', rs', ws, dB, dA, hsep', hwlen, _, _, _, hout⟩ :=
      compose_prepad_structure d fuel r pre pad r₂ h
    rw [hsep'] at hsep
    cases hsep
    exact ⟨ws, dB, dA, hwlen, hout⟩

/-- Witness for claim C3: single-resolution theorem instantiated on `cfgC1`. -/
theorem separator_single_resolution_witness :
    (∀ m : SeparatorType, random_separator { cfgC1 with separatorCharacter := m } randC1 =
      Except.ok ("-".toList, Rand.mk valsC1 1)) ∧
    (∀ c : List Char, cfgC1.separatorAlphabet = [c] → "-".toList = c) ∧
    (∃ ws dB dA, ws.length = cfgC1.numWords.toNat ∧
      "abcd-efghi".toList = front_pad cfgC1 ("+".toList)
        ++ (if 0 < cfgC1.paddingDigitsBefore then dB ++ "-".toList else [])
        ++ List.intercalate ("-".toList) ws
        ++ (if 0 < cfgC1.paddingDigitsAfter then "-".toList ++ dA else [])
        ++ back_pad cfgC1 ("+".toList)) :=
  separator_single_resolution cfgC1 3 randC1 "abcd-efghi".toList "+".toList
    (Rand.mk valsC1 3) "-".toList (Rand.mk valsC1 1) rfl rfl

/-- Counterexample to claim C1: On a pre-padding string of length 10
(`"abcd-efghi"`) with `padToLength = 7`, the code returns `"bcd-efg"`
(characters 1-7), while the last 7 characters are `"d-efghi"`. -/
theorem adaptive_truncation_counterexample :
    Except.map (Option.map (fun x => x.1)) (compose_prepad cfgC1 3 randC1) =
      Except.ok (some ("abcd-efghi".toList)) ∧
    cfgC1.padToLength = 7 ∧
    generate_output cfgC1 3 randC1 = Except.ok (some ("bcd-efg".toList)) ∧
    "bcd-efg".toList ≠ ("abcd-efghi".toList).drop (("abcd-efghi".toList).length - 7) := by
  exact ⟨rfl, rfl, rfl, by decide⟩

/-- Claim C1 as amended: For Adaptive padding with the pre-padding string
strictly longer than `padToLength` (and `padToLength ≥ 0`), the result is
the `padToLength` characters starting at index 1 of the pre-padding string:
exactly one leading character is dropped and the remaining excess is
trimmed from the tail.  (It equals the last `padToLength` characters only
when the excess is exactly one character.) -/
theorem adaptive_truncation_drops_first (d : Defaults) (fuel : Nat) (r : Rand)
    (pre pad : List Char) (r₂ : Rand)
    (hAdapt : d.paddingType = PaddingType.paddingAdaptive)
    (hnn : 0 ≤ d.padToLength)
    (hlong : d.padToLength < (pre.length : Int))
    (h : compose_prepad d fuel r = Except.ok (some (pre, pad, r₂))) :
    generate_output d fuel r = Except.ok (some ((pre.drop 1).take d.padToLength.toNat)) ∧
    ((pre.drop 1).take d.padToLength.toNat).length = d.padToLength.toNat := by
  constructor
  · simp only [generate_output, h, hAdapt, if_true]
    rw [if_pos hlong, if_neg (not_lt.mpr hnn)]
  · simp only [List.length_take, List.length_drop]
    omega

/-- Witness for claim C1: the amended truncation theorem instantiated on `cfgC1`. -/
theorem adaptive_truncation_drops_first_witness :
    generate_output cfgC1 3 randC1 =
      Except.ok (some (("abcd-efghi".toList.drop 1).take cfgC1.padToLength.toNat)) ∧
    (("abcd-efghi".toList.drop 1).take cfgC1.padToLength.toNat).length = cfgC1.padToLength.toNat :=
  adaptive_truncation_drops_first cfgC1 3 randC1 "abcd-efghi".toList "+".toList
    (Rand.mk valsC1 3) rfl (by decide) (by decide) rfl

/-- Claim C6: For Adaptive padding with a single-character padding symbol (and
`padToLength ≥ 0`), the final output has length exactly `padToLength`, and
when the pre-padding string is shorter than `padToLength` the output is that
string with exactly `padToLength - length` padding symbols appended. -/
theorem adaptive_pads_to_exact_length (d : Defaults) (fuel : Nat) (r : Rand)
    (pre pad : List Char) (r₂ : Rand)
    (hAdapt : d.paddingType = PaddingType.paddingAdaptive)
    (hpad1 : pad.length = 1)
    (hnn : 0 ≤ d.padToLength)
    (h : compose_prepad d fuel r = Except.ok (some (pre, pad, r₂))) :
    ∃ out, generate_output d fuel r = Except.ok (some out) ∧
      out.length = d.padToLength.toNat ∧
      ((pre.length : Int) < d.padToLength →
        out = pre ++ (List.replicate (d.padToLength - (pre.length : Int)).toNat pad).flatten) := by
  simp only [generate_output, h, hAdapt, if_true]
  rcases lt_trichotomy (pre.length : Int) d.padToLength with hcmp | hcmp | hcmp
  · rw [if_neg (by omega), if_pos hcmp]
    refine ⟨_, rfl, ?_, fun _ => rfl⟩
    simp only [List.length_append, flatten_replicate_length, hpad1, Nat.mul_one]
    omega
  · rw [if_neg (by omega), if_neg (by omega)]
    exact ⟨pre, rfl, by omega, fun hc => absurd hc (by omega)⟩
  · rw [if_pos hcmp, if_neg (not_lt.mpr hnn)]
    refine ⟨_, rfl, ?_, fun hc => absurd hc (by omega)⟩
    simp only [List.length_take, List.length_drop]
    omega

/-- Witness for claim C6: the exact-length theorem instantiated on `cfgC6`
(pre-padding string `"abcd"` of length 4, `padToLength = 8`). -/
theorem adaptive_pads_to_exact_length_witness :
    ∃ out, generate_output cfgC6 3 randZero = Except.ok (some out) ∧
      out.length = cfgC6.padToLength.toNat ∧
      (("abcd".toList.length : Int) < cfgC6.padToLength →
        out = "abcd".toList ++
          (List.replicate (cfgC6.padToLength - ("abcd".toList.length : Int)).toNat ("+".toList)).flatten) :=
  adaptive_pads_to_exact_length cfgC6 3 randZero "abcd".toList "+".toList
    (Rand.mk zeroStream 2) rfl (by decide) (by decide) rfl

/-- Witness for claim C4: the in-bounds theorem instantiated on `cfgC1`. -/
theorem random_word_length_in_bounds_witness :
    cfgC1.wordLengthMin ≤ (("abcd".toList).length : Int) ∧
    (("abcd".toList).length : Int) ≤ cfgC1.wordLengthMax :=
  random_word_length_in_bounds cfgC1 1 randZero "abcd".toList (Rand.mk zeroStream 1)
    ⟨"abcd".toList, by decide⟩ rfl

/-! Section: Parser lemmas -/

theorem random_separator_singleton (d : Defaults) (c : List Char)
    (hc : d.separatorAlphabet = [c]) (r : Rand) :
    random_separator d r = Except.ok (c, r.next) := by
  simp [random_separator, rand_int, hc, Nat.mod_one]

theorem parse_case_transform_unknown (ct : List Char) (h : ct ∉ caseTokens) :
    parse_case_transform ct = Except.error (ConfigError.unknownCaseType ct) := by
  simp only [caseTokens, List.mem_cons, List.not_mem_nil, or_false, not_or] at h
  obtain ⟨h1, h2, h3, h4, h5, h6, h7⟩ := h
  simp only [parse_case_transform, if_neg h1, if_neg h2, if_neg h3, if_neg h4,
    if_neg h5, if_neg h6, if_neg h7]

theorem parse_case_transform_known (ct : List Char) (h : ct ∈ caseTokens) :
    ∃ v, parse_case_transform ct = Except.ok v := by
  simp only [caseTokens, List.mem_cons, List.not_mem_nil, or_false] at h
  rcases h with rfl | rfl | rfl | rfl | rfl | rfl | rfl <;> exact ⟨_, rfl⟩

theorem parse_separator_unknown (sc : List Char) (alpha : List (List Char))
    (h1 : sc ∉ sepTokens) (h2 : sc.length > 1) :
    parse_separator sc alpha = Except.error (ConfigError.unknownSeparatorCharacter sc) := by
  simp only [sepTokens, List.mem_cons, List.not_mem_nil, or_false, not_or] at h1
  simp only [parse_separator, if_neg h1.1, if_neg h1.2, if_pos h2]

theorem parse_separator_ok (sc : List Char) (alpha : List (List Char))
    (h : sc ∈ sepTokens ∨ sc.length ≤ 1) :
    ∃ v, parse_separator sc alpha = Except.ok v := by
  simp only [sepTokens, List.mem_cons, List.not_mem_nil, or_false] at h
  simp only [parse_separator]
  split_ifs with h1 h2 h3
  · exact ⟨_, rfl⟩
  · exact ⟨_, rfl⟩
  · rcases h with hm | hl
    · tauto
    · omega
  · exact ⟨_, rfl⟩

theorem parse_separator_literal (sc : List Char) (alpha : List (List Char))
    (st : SeparatorType) (sa : List (List Char))
    (hne : sc ∉ sepTokens)
    (h : parse_separator sc alpha = Except.ok (st, sa)) :
    st = SeparatorType.separatorCharacter ∧ sa = [sc] := by
  simp only [sepTokens, List.mem_cons, List.not_mem_nil, or_false, not_or] at hne
  simp only [parse_separator, if_neg hne.1, if_neg hne.2] at h
  split at h
  · cases h
  · cases h
    exact ⟨rfl, rfl⟩

theorem parse_padding_type_unknown (pt : List Char) (h : pt ∉ padTypeTokens) :
    parse_padding_type pt = Except.error (ConfigError.unknownPaddingType pt) := by
  simp only [padTypeTokens, List.mem_cons, List.not_mem_nil, or_false, not_or] at h
  simp only [parse_padding_type, if_neg h.1, if_neg h.2.1, if_neg h.2.2]

theorem parse_padding_type_known (pt : List Char) (h : pt ∈ padTypeTokens) :
    ∃ v, parse_padding_type pt = Except.ok v := by
  simp only [padTypeTokens, List.mem_cons, List.not_mem_nil, or_false] at h
  rcases h with rfl | rfl | rfl <;> exact ⟨_, rfl⟩

theorem parse_padding_char_unknown (pc : List Char) (alpha : List (List Char))
    (h1 : pc ∉ padCharTokens) (h2 : pc.length > 1) :
    parse_padding_char pc alpha = Except.error (ConfigError.unknownPaddingCharacter pc) := by
  simp only [padCharTokens, List.mem_cons, List.not_mem_nil, or_false, not_or] at h1
  simp only [parse_padding_char, if_neg h1.1, if_neg h1.2, if_pos h2]

theorem parse_padding_char_ok (pc : List Char) (alpha : List (List Char))
    (h : pc ∈ padCharTokens ∨ pc.length ≤ 1) :
    ∃ v, parse_padding_char pc alpha = Except.ok v := by
  simp only [padCharTokens, List.mem_cons, List.not_mem_nil, or_false] at h
  simp only [parse_padding_char]
  split_ifs with h1 h2 h3
  · exact ⟨_, rfl⟩
  · exact ⟨_, rfl⟩
  · rcases h with hm | hl
    · tauto
    · omega
  · exact ⟨_, rfl⟩

theorem parse_padding_char_literal (pc : List Char) (alpha : List (List Char))
    (st : PaddingCharacter) (sa : List (List Char))
    (hne : pc ∉ padCharTokens)
    (h : parse_padding_char pc alpha = Except.ok (st, sa)) :
    st = PaddingCharacter.paddingSpecified ∧ sa = [pc] := by
  simp only [padCharTokens, List.mem_cons, List.not_mem_nil, or_false, not_or] at hne
  simp only [parse_padding_char, if_neg hne.1, if_neg hne.2] at h
  split at h
  · cases h
  · cases h
    exact ⟨rfl, rfl⟩

/-- Claim C7: Every enum-valued field of the raw record either resolves (after
lower-casing) to a recognized token — or, for the two character fields, to a
string of length at most one taken as a literal — in which case parsing
succeeds, or parsing fails with the error constructor naming the offending
field and (lower-cased) value; in particular a multi-character string in a
character field fails that way.  Failures are checked in source order. -/
theorem read_defaults_enum_resolution (j : JSONDefaults) :
    (strLower j.caseTransform ∉ caseTokens →
      read_defaults j = Except.error (ConfigError.unknownCaseType (strLower j.caseTransform))) ∧
    (strLower j.caseTransform ∈ caseTokens →
      strLower j.separatorCharacter ∉ sepTokens → (strLower j.separatorCharacter).length > 1 →
      read_defaults j = Except.error (ConfigError.unknownSeparatorCharacter (strLower j.separatorCharacter))) ∧
    (strLower j.caseTransform ∈ caseTokens →
      (strLower j.separatorCharacter ∈ sepTokens ∨ (strLower j.separatorCharacter).length ≤ 1) →
      strLower j.paddingType ∉ padTypeTokens →
      read_defaults j = Except.error (ConfigError.unknownPaddingType (strLower j.paddingType))) ∧
    (strLower j.caseTransform ∈ caseTokens →
      (strLower j.separatorCharacter ∈ sepTokens ∨ (strLower j.separatorCharacter).length ≤ 1) →
      strLower j.paddingType ∈ padTypeTokens →
      strLower j.paddingCharacter ∉ padCharTokens → (strLower j.paddingCharacter).length > 1 →
      read_defaults j = Except.error (ConfigError.unknownPaddingCharacter (strLower j.paddingCharacter))) ∧
    (strLower j.caseTransform ∈ caseTokens →
      (strLower j.separatorCharacter ∈ sepTokens ∨ (strLower j.separatorCharacter).length ≤ 1) →
      strLower j.paddingType ∈ padTypeTokens →
      (strLower j.paddingCharacter ∈ padCharTokens ∨ (strLower j.paddingCharacter).length ≤ 1) →
      ∃ d, read_defaults j = Except.ok d) := by
  refine ⟨?_, ?_, ?_, ?_, ?_⟩
  · intro h
    simp only [read_defaults, parse_case_transform_unknown _ h]
  · intro h1 h2 h3
    obtain ⟨v, hv⟩ := parse_case_transform_known _ h1
    simp only [read_defaults, hv, parse_separator_unknown _ j.separatorAlphabet h2 h3]
  · intro h1 h2 h3
    obtain ⟨v, hv⟩ := parse_case_transform_known _ h1
    obtain ⟨⟨st, sa⟩, hsv⟩ := parse_separator_ok _ j.separatorAlphabet h2
    simp only [read_defaults, hv, hsv, parse_padding_type_unknown _ h3]
  · intro h1 h2 h3 h4 h5
    obtain ⟨v, hv⟩ := parse_case_transform_known _ h1
    obtain ⟨⟨st, sa⟩, hsv⟩ := parse_separator_ok _ j.separatorAlphabet h2
    obtain ⟨pt, hpt⟩ := parse_padding_type_known _ h3
    simp only [read_defaults, hv, hsv, hpt, parse_padding_char_unknown _ j.symbolAlphabet h4 h5]
  · intro h1 h2 h3 h4
    obtain ⟨v, hv⟩ := parse_case_transform_known _ h1
    obtain ⟨⟨st, sa⟩, hsv⟩ := parse_separator_ok _ j.separatorAlphabet h2
    obtain ⟨pt, hpt⟩ := parse_padding_type_known _ h3
    obtain ⟨⟨pc, pa⟩, hpc⟩ := parse_padding_char_ok _ j.symbolAlphabet h4
    simp only [read_defaults, hv, hsv, hpt, hpc]
    exact ⟨_, rfl⟩

/-- Witness for claim C7: an unknown case-transform token fails naming the field
and lower-cased value; the all-recognized record `jC9` parses. -/
theorem read_defaults_enum_resolution_witness :
    read_defaults jC7bad = Except.error (ConfigError.unknownCaseType (strLower jC7bad.caseTransform)) ∧
    ∃ d, read_defaults jC9 = Except.ok d :=
  ⟨(read_defaults_enum_resolution jC7bad).1 (by decide),
   (read_defaults_enum_resolution jC9).2.2.2.2 (by decide) (by decide) (by decide) (by decide)⟩

/-- Claim C8: When random separator selection is active with an empty
separator alphabet, or random padding-symbol selection is active (padding
type Fixed or Adaptive with padding character Random) with an empty symbol
alphabet, composition fails with the invalid-alphabet error (the modelled
`crypto/rand.Int` panic) instead of producing a password. -/
theorem empty_alphabet_fails (d : Defaults) (fuel : Nat) (r : Rand) :
    (d.separatorCharacter = SeparatorType.separatorRandom → d.separatorAlphabet = [] →
      generate_output d fuel r = Except.error GenError.invalidAlphabet) ∧
    ((d.paddingType = PaddingType.paddingFixed ∨ d.paddingType = PaddingType.paddingAdaptive) →
      d.paddingCharacter = PaddingCharacter.paddingRandom → d.symbolAlphabet = [] →
      generate_output d fuel r = Except.error GenError.invalidAlphabet) := by
  constructor
  · intro _ hempty
    simp [generate_output, compose_prepad, random_separator, rand_int, hempty]
  · intro hpt hpc hempty
    rcases eq_or_ne d.separatorAlphabet [] with hsep | hsep
    · simp [generate_output, compose_prepad, random_separator, rand_int, hsep]
    · have hlen : ¬ (Int.ofNat d.separatorAlphabet.length ≤ 0) := by
        simpa using hsep
      simp only [generate_output, compose_prepad, random_separator, rand_int, if_neg hlen,
        resolve_padding, if_pos hpt, hpc]
      simp [random_padding, rand_int, hempty]

/-- Witness for claim C8: both failure modes on concrete configurations. -/
theorem empty_alphabet_fails_witness :
    generate_output cfgC8sep 0 randZero = Except.error GenError.invalidAlphabet ∧
    generate_output cfgC8pad 0 randZero = Except.error GenError.invalidAlphabet :=
  ⟨(empty_alphabet_fails cfgC8sep 0 randZero).1 rfl rfl,
   (empty_alphabet_fails cfgC8pad 0 randZero).2 (Or.inr rfl) rfl rfl⟩

/-- Counterexample to claim C9: The record `jC9` with `word_length_min = 10 >
3 = word_length_max` parses successfully: `read_defaults` performs no
`min ≤ max` validation, so a violating record still yields a
configuration. -/
theorem min_max_unvalidated_counterexample :
    Except.map (fun d => (d.wordLengthMin, d.wordLengthMax)) (read_defaults jC9) =
      Except.ok ((10 : Int), (3 : Int)) ∧
    ¬ ((10 : Int) ≤ (3 : Int)) := by
  exact ⟨rfl, by decide⟩

/-- Claim C9 as amended: `read_defaults` copies `wordLengthMin` and
`wordLengthMax` from the raw record unvalidated: the bound
`wordLengthMin ≤ wordLengthMax` is not enforced, and a violating record
yields a configuration carrying the same out-of-order bounds. -/
theorem read_defaults_copies_word_lengths (j : JSONDefaults) (d : Defaults)
    (h : read_defaults j = Except.ok d) :
    d.wordLengthMin = j.wordLengthMin ∧ d.wordLengthMax = j.wordLengthMax := by
  simp only [read_defaults] at h
  split at h
  · cases h
  · split at h
    · cases h
    · split at h
      · cases h
      · split at h
        · cases h
        · cases h
          exact ⟨rfl, rfl⟩

/-- Witness for claim C9: the copy theorem instantiated on `jC9`. -/
theorem read_defaults_copies_word_lengths_witness :
    dC9.wordLengthMin = jC9.wordLengthMin ∧ dC9.wordLengthMax = jC9.wordLengthMax :=
  read_defaults_copies_word_lengths jC9 dC9 rfl

/-- Claim C10: When a character field holds a literal (neither a recognized
enum token nor longer than one character), `read_defaults` stores the
lower-cased literal as the one-element alphabet, so an upper-case
configured separator or padding character is emitted in its lower-case
form. -/
theorem literal_characters_stored_lowercased (j : JSONDefaults) (d : Defaults)
    (h : read_defaults j = Except.ok d) :
    (strLower j.separatorCharacter ∉ sepTokens →
      d.separatorCharacter = SeparatorType.separatorCharacter ∧
      d.separatorAlphabet = [strLower j.separatorCharacter] ∧
      ∀ r, random_separator d r = Except.ok (strLower j.separatorCharacter, r.next)) ∧
    (strLower j.paddingCharacter ∉ padCharTokens →
      d.paddingCharacter = PaddingCharacter.paddingSpecified ∧
      d.symbolAlphabet = [strLower j.paddingCharacter]) := by
  simp only [read_defaults] at h
  split at h
  · cases h
  · split at h
    · cases h
    · rename_i st sa hsp
      split at h
      · cases h
      · split at h
        · cases h
        · rename_i pc pa hpc
          cases h
          constructor
          · intro hne
            obtain ⟨hst, hsa⟩ := parse_separator_literal _ _ _ _ hne hsp
            exact ⟨hst, hsa, fun r => random_separator_singleton _ _ hsa r⟩
          · intro hne
            obtain ⟨hpcs, hpa⟩ := parse_padding_char_literal _ _ _ _ hne hpc
            exact ⟨hpcs, hpa⟩

/-- Witness for claim C10: the record `jC10` with literal `"X"`/`"Y"` yields the
lower-case alphabets `["x"]`/`["y"]`, and composition emits `x` as the
separator. -/
theorem literal_characters_stored_lowercased_witness :
    dC10.separatorCharacter = SeparatorType.separatorCharacter ∧
    dC10.separatorAlphabet = [strLower jC10.separatorCharacter] ∧
    random_separator dC10 randZero = Except.ok (strLower jC10.separatorCharacter, randZero.next) ∧
    dC10.symbolAlphabet = [strLower jC10.paddingCharacter] := by
  have h := literal_characters_stored_lowercased jC10 dC10 rfl
  exact ⟨(h.1 (by decide)).1, (h.1 (by decide)).2.1, (h.1 (by decide)).2.2 randZero,
    (h.2 (by decide)).2⟩

end XkcdPasswd
